import Mathlib

/-!
# Shallow embedding of the Dispatch notification service

This file models the core of the `dispatch-service` repository in Lean 4 and
proves (or refutes) the frozen specification claims about it.  Each definition
is translated from the TypeScript source named in its doc comment; theorems at
the end of the file settle the claims.
-/

namespace Dispatch

/-! ## JavaScript string primitives

The authentication code manipulates JavaScript strings and Node buffers, so we
model the relevant primitives: `String.length` (UTF-16 code units) and
`Buffer.write` (UTF-8 bytes, whole characters only).  Lean characters are
Unicode scalar values, exactly the code points a well-formed JS string holds. -/

/-- Number of UTF-16 code units of one character, as JavaScript `String.length`
counts them (code points below `0x10000` take one unit, the rest two). -/
def utf16Len (c : Char) : Nat :=
  if c.toNat < 0x10000 then 1 else 2

/-- JavaScript `String.length`: the number of UTF-16 code units. -/
def jsLength (s : List Char) : Nat :=
  (s.map utf16Len).sum

/-- UTF-8 encoding of a single character, as Node `Buffer.write` emits it. -/
def utf8Bytes (c : Char) : List Nat :=
  let n := c.toNat
  if n < 0x80 then [n]
  else if n < 0x800 then [0xC0 + n / 0x40, 0x80 + n % 0x40]
  else if n < 0x10000 then
    [0xE0 + n / 0x1000, 0x80 + (n / 0x40) % 0x40, 0x80 + n % 0x40]
  else
    [0xF0 + n / 0x40000, 0x80 + (n / 0x1000) % 0x40, 0x80 + (n / 0x40) % 0x40,
      0x80 + n % 0x40]

/-- Node `Buffer.alloc(cap, 0)` followed by `buf.write(s)`: the UTF-8 bytes of
the characters of `s` are written while they fit; a character that does not fit
completely is not written at all and writing stops (documented `Buffer.write`
behaviour: "partially encoded characters will not be written"); the remainder
of the buffer keeps its zero fill. -/
def bufWrite : Nat → List Char → List Nat
  | cap, [] => List.replicate cap 0
  | cap, c :: cs =>
    let b := utf8Bytes c
    if b.length ≤ cap then b ++ bufWrite (cap - b.length) cs
    else List.replicate cap 0

/-- `safeCompare` from `src/middleware/authenticate.ts`:

```ts
const maxLen = Math.max(a.length, b.length)
const bufA = Buffer.alloc(maxLen, 0)
const bufB = Buffer.alloc(maxLen, 0)
bufA.write(a)
bufB.write(b)
return timingSafeEqual(bufA, bufB) && a.length === b.length
```

`timingSafeEqual` on two buffers of equal allocation is byte-list equality. -/
def safeCompare (a b : String) : Bool :=
  let maxLen := max (jsLength a.data) (jsLength b.data)
  (bufWrite maxLen a.data == bufWrite maxLen b.data)
    && (jsLength a.data == jsLength b.data)

example : safeCompare "abc" "abc" = true := by decide
example : safeCompare "abc" "abd" = false := by decide
example : safeCompare "ab" "abc" = false := by decide
example : safeCompare "" "" = true := by decide
example : safeCompare "éa" "éb" = true := by decide

/-! ## Sanitizer (`src/utils/sanitize.ts`)

Each regex replacement of `sanitize` is modelled by a scanner over the
character list with JavaScript `String.replace` semantics: matches are found
left to right in the current string, are non-overlapping, and scanning resumes
after each match.  Scanners whose resume point is a non-structural suffix use
a fuel argument initialised to the string length, which bounds the number of
positions a scan can visit, so the fuel never runs out on the initial call. -/

/-- ECMAScript `\s` (`WhiteSpace` plus `LineTerminator`), the same set
`String.prototype.trim` removes. -/
def isJsWs (c : Char) : Bool :=
  c.toNat ∈ [0x09, 0x0A, 0x0B, 0x0C, 0x0D, 0x20, 0xA0, 0x1680, 0x2028, 0x2029,
      0x202F, 0x205F, 0x3000, 0xFEFF]
    || (0x2000 ≤ c.toNat && c.toNat ≤ 0x200A)

/-- ECMAScript `\w`: `[A-Za-z0-9_]`. -/
def isWordChar (c : Char) : Bool :=
  ('a' ≤ c && c ≤ 'z') || ('A' ≤ c && c ≤ 'Z') || ('0' ≤ c && c ≤ '9') || c = '_'

/-- ASCII lower-casing; the case folding `/i` performs on the ASCII pattern
characters appearing in the source regexes. -/
def asciiLower (c : Char) : Char :=
  if 'A' ≤ c && c ≤ 'Z' then Char.ofNat (c.toNat + 32) else c

/-- Case-insensitive character comparison (ASCII folding). -/
def ciEq (a b : Char) : Bool :=
  asciiLower a = asciiLower b

/-- If `pat` (case-insensitively) starts `s`, return the remainder of `s`. -/
def matchHeadCI : List Char → List Char → Option (List Char)
  | [], s => some s
  | _ :: _, [] => none
  | p :: ps, c :: cs => if ciEq p c then matchHeadCI ps cs else none

/-- One pass of `str.replace(/<[^>]*>/g, '')`: a `<` and everything up to the
next `>` (inclusive) is dropped; a `<` never followed by `>` matches nothing,
so its span is kept.  The automaton buffers characters after an open `<` until
it learns whether a closing `>` arrives. -/
def stripTagsGo : Option (List Char) → List Char → List Char
  | none, [] => []
  | some buf, [] => '<' :: buf.reverse
  | none, c :: rest =>
    if c = '<' then stripTagsGo (some []) rest else c :: stripTagsGo none rest
  | some buf, c :: rest =>
    if c = '>' then stripTagsGo none rest else stripTagsGo (some (c :: buf)) rest

/-- The `while (previous !== str)` loop of `sanitize`, iterating the tag strip
to a fixed point.  Every changing iteration strictly shortens the string
(`stripTagsGo_sublist` below), so `length + 1` units of fuel always reach the
fixed point the source loop stops at. -/
def stripTagsLoop : Nat → List Char → List Char
  | 0, s => s
  | fuel + 1, s =>
    let s2 := stripTagsGo none s
    if s2 = s then s else stripTagsLoop fuel s2

def stripTags (s : List Char) : List Char :=
  stripTagsLoop (s.length + 1) s

/-- The scanner only deletes characters: its output is a sublist of
`⟨open angle⟩ :: buf.reverse ++ input` (pending state) resp. of the input. -/
theorem stripTagsGo_sublist :
    ∀ (s : List Char), (stripTagsGo none s).Sublist s ∧
      ∀ buf, (stripTagsGo (some buf) s).Sublist ('<' :: buf.reverse ++ s) := by
  intro s
  induction s with
  | nil =>
    refine ⟨List.Sublist.refl _, fun buf => ?_⟩
    simp [stripTagsGo]
  | cons c rest ih =>
    constructor
    · by_cases hc : c = '<'
      · simpa [stripTagsGo, hc] using (ih.2 []).trans (by simp)
      · simpa [stripTagsGo, hc] using (ih.1.cons₂ c)
    · intro buf
      by_cases hc : c = '>'
      · simp only [stripTagsGo, hc, if_pos rfl]
        refine ih.1.trans ?_
        simpa using List.sublist_append_right ('<' :: buf.reverse ++ ['>']) rest
      · have h2 := ih.2 (c :: buf)
        simp only [stripTagsGo, hc, if_neg hc]
        refine h2.trans ?_
        simp [List.reverse_cons, List.append_assoc]

/-- A changing pass strictly shortens the string, so the fuelled loop reaches a
genuine fixed point of the tag strip — the state the source loop stops at. -/
theorem stripTagsLoop_fixed :
    ∀ (fuel : Nat) (s : List Char), s.length < fuel →
      stripTagsGo none (stripTagsLoop fuel s) = stripTagsLoop fuel s := by
  intro fuel
  induction fuel with
  | zero => intro s h; omega
  | succ f ih =>
    intro s h
    by_cases h2 : stripTagsGo none s = s
    · simp [stripTagsLoop, h2]
    · have hsub := (stripTagsGo_sublist s).1
      have hlt : (stripTagsGo none s).length < s.length := by
        rcases Nat.lt_or_ge (stripTagsGo none s).length s.length with hl | hl
        · exact hl
        · exact absurd (hsub.eq_of_length (Nat.le_antisymm hsub.length_le hl)) h2
      simpa [stripTagsLoop, h2] using ih (stripTagsGo none s) (by omega)

/-- Remainder after a match of `/javascript\s*:/i` at the head of `s`, if any. -/
def tryJsProto (s : List Char) : Option (List Char) :=
  match matchHeadCI ['j', 'a', 'v', 'a', 's', 'c', 'r', 'i', 'p', 't'] s with
  | none => none
  | some rest =>
    match rest.dropWhile isJsWs with
    | c :: r => if c = ':' then some r else none
    | [] => none

/-- `str.replace(/javascript\s*:/gi, '')`: scan left to right, dropping each
match and resuming after it.  Fuel starts at the string length; every step
consumes at least one character, so it cannot run out. -/
def removeJsGo : Nat → List Char → List Char
  | 0, s => s
  | _ + 1, [] => []
  | fuel + 1, c :: rest =>
    match tryJsProto (c :: rest) with
    | some r => removeJsGo fuel r
    | none => c :: removeJsGo fuel rest

/-- Remainder after a match of `/on\w+\s*=\s*[^\s]*/i` at the head of `s`
(the word boundary before `on` is checked by the caller).  The greedy pieces
are deterministic: `\w+` cannot eat `=` or spaces and `[^\s]*` cannot eat
whitespace, so no backtracking arises. -/
def tryOnHandler (s : List Char) : Option (List Char) :=
  match matchHeadCI ['o', 'n'] s with
  | none => none
  | some rest =>
    if (rest.takeWhile isWordChar).isEmpty then none
    else
      match (rest.dropWhile isWordChar).dropWhile isJsWs with
      | c :: r =>
        if c = '=' then some ((r.dropWhile isJsWs).dropWhile (fun d => !isJsWs d))
        else none
      | [] => none

/-- `str.replace(/\bon\w+\s*=\s*[^\s]*/gi, '')`.  The boolean tracks whether
the character before the current position is a word character, which decides
the `\b` word boundary (the `o` of `on` is a word character). -/
def removeOnGo : Nat → Bool → List Char → List Char
  | 0, _, s => s
  | _ + 1, _, [] => []
  | fuel + 1, prevWord, c :: rest =>
    match if prevWord then none else tryOnHandler (c :: rest) with
    | some r =>
      let consumed := (c :: rest).take ((c :: rest).length - r.length)
      removeOnGo fuel (match consumed.getLast? with
        | some d => isWordChar d
        | none => prevWord) r
    | none => c :: removeOnGo fuel (isWordChar c) rest

/-- `str.replace(/[^\S\n]+/g, ' ')`: each run of non-newline whitespace
becomes a single space.  The boolean records whether the previous character
belonged to such a run. -/
def collapseWsGo : Bool → List Char → List Char
  | _, [] => []
  | prev, c :: rest =>
    if isJsWs c && c ≠ '\n' then
      if prev then collapseWsGo true rest else ' ' :: collapseWsGo true rest
    else c :: collapseWsGo false rest

/-- JavaScript `String.prototype.trim`. -/
def jsTrim (s : List Char) : List Char :=
  ((s.dropWhile isJsWs).reverse.dropWhile isJsWs).reverse

/-- `sanitize` from `src/utils/sanitize.ts` on string input (the
`null`/`undefined` branches, which return `""`, are modelled at the call
sites): iterated tag stripping, removal of remaining bare angle brackets,
removal of `javascript:` protocol markers, removal of inline `on…=` event
handlers, whitespace collapsing and trimming. -/
def sanitize (input : String) : String :=
  let s1 := stripTags input.data
  let s2 := (s1.filter (· ≠ '<')).filter (· ≠ '>')
  let s3 := removeJsGo s2.length s2
  let s4 := removeOnGo s3.length false s3
  let s5 := collapseWsGo false s4
  String.mk (jsTrim s5)

/-- `sanitizeEmail` from `src/utils/sanitize.ts`: trim and lower-case (the
inputs the service feeds it are ASCII; `asciiLower` is the ASCII fragment of
`toLowerCase`). -/
def sanitizeEmail (input : String) : String :=
  String.mk ((jsTrim input.data).map asciiLower)

/-- `pat` occurs as a contiguous substring of `s`. -/
def headMatches : List Char → List Char → Bool
  | [], _ => true
  | _ :: _, [] => false
  | p :: ps, c :: cs => p = c && headMatches ps cs

def hasSub (pat : List Char) : List Char → Bool
  | [] => headMatches pat []
  | c :: rest => headMatches pat (c :: rest) || hasSub pat rest

example : sanitize "<p>Hello</p>" = "Hello" := by decide
example : sanitize "Hello <b>world</b>" = "Hello world" := by decide
example : sanitize "<<script>>alert(1)<</script>>" = "alert(1)" := by decide
example : sanitize "<img src=x onerror=alert(1)>" = "" := by decide
example : sanitize "javascript:alert(1)" = "alert(1)" := by decide
example : sanitize "JAVASCRIPT:void(0)" = "void(0)" := by decide
example : sanitize "onerror=alert(1)" = "" := by decide
example : sanitize "ONLOAD=hack()" = "" := by decide
example : sanitize "  hello  " = "hello" := by decide
example : sanitize "hello    world" = "hello world" := by decide
example : sanitize "line1\nline2" = "line1\nline2" := by decide
example : sanitize "Hej Åsa!" = "Hej Åsa!" := by decide
example : sanitizeEmail "  Test@Example.COM  " = "test@example.com" := by decide

/-! ## Spam classifier (`src/utils/spam.ts`)

Each source regex is modelled by an executable matcher with `RegExp.test`
semantics (does a match exist anywhere in the string).  The alternation and
quantifier structure of every pattern is simple enough to be deterministic, so
no backtracking search is needed beyond the bounded gap of rule 13. -/

/-- ECMAScript line terminators, the characters `.` does not match. -/
def isLineTerm (c : Char) : Bool :=
  c.toNat ∈ [0x0A, 0x0D, 0x2028, 0x2029]

/-- `RegExp.test` for a case-insensitive literal: the pattern occurs anywhere. -/
def hasSubCI (pat : List Char) : List Char → Bool
  | [] => (matchHeadCI pat []).isSome
  | c :: rest => (matchHeadCI pat (c :: rest)).isSome || hasSubCI pat rest

/-- One of the words `ws` matches here, with a word boundary after it. -/
def wordAltAt (ws : List (List Char)) (s : List Char) : Bool :=
  ws.any fun w =>
    match matchHeadCI w s with
    | some [] => true
    | some (d :: _) => !isWordChar d
    | none => false

/-- `RegExp.test` for `/\b(w₁|w₂|…)\b/i` where every `wᵢ` is a letter word:
scan the string tracking whether the previous character is a word character
(which decides the leading `\b`). -/
def hasWordAlt (ws : List (List Char)) : Bool → List Char → Bool
  | _, [] => false
  | prevWord, c :: rest =>
    (!prevWord && wordAltAt ws (c :: rest)) || hasWordAlt ws (isWordChar c) rest

/-- `RegExp.test` for `/\$\d+/`. -/
def hasDollarAmount : List Char → Bool
  | [] => false
  | c :: rest =>
    (c = '$' && match rest with
      | d :: _ => d.isDigit
      | [] => false)
    || hasDollarAmount rest

/-- `money` matches within the next `tries - 1` gap characters (the `.{0,20}`
of rule 13, where `.` excludes line terminators), followed by `\b`. -/
def moneyWithin : Nat → List Char → Bool
  | 0, _ => false
  | tries + 1, s =>
    (match matchHeadCI ['m', 'o', 'n', 'e', 'y'] s with
      | some [] => true
      | some (d :: _) => !isWordChar d
      | none => false)
    || (match s with
      | c :: rest => !isLineTerm c && moneyWithin tries rest
      | [] => false)

/-- `(earn|make).{0,20}money\b` matches at the head of `s`. -/
def earnMakeAt (s : List Char) : Bool :=
  [['e', 'a', 'r', 'n'], ['m', 'a', 'k', 'e']].any fun w =>
    match matchHeadCI w s with
    | some rest => moneyWithin 21 rest
    | none => false

/-- `RegExp.test` for `/\b(earn|make).{0,20}money\b/i`. -/
def hasEarnMakeMoney : Bool → List Char → Bool
  | _, [] => false
  | prevWord, c :: rest =>
    (!prevWord && earnMakeAt (c :: rest)) || hasEarnMakeMoney (isWordChar c) rest

/-- `RegExp.test` for `/(.)\1{4,}/`: five identical consecutive characters,
the first of which `.` must match (no line terminator). -/
def hasRepeat5 : List Char → Bool
  | c1 :: c2 :: c3 :: c4 :: c5 :: rest =>
    (!isLineTerm c1 && c1 == c2 && c2 == c3 && c3 == c4 && c4 == c5)
    || hasRepeat5 (c2 :: c3 :: c4 :: c5 :: rest)
  | _ => false

def isArabicChar (c : Char) : Bool :=
  0x600 ≤ c.toNat && c.toNat ≤ 0x6FF

/-- `RegExp.test` for `/[؀-ۿ]{5,}/`. -/
def hasArabic5 : List Char → Bool
  | c1 :: c2 :: c3 :: c4 :: c5 :: rest =>
    (isArabicChar c1 && isArabicChar c2 && isArabicChar c3 && isArabicChar c4
      && isArabicChar c5)
    || hasArabic5 (c2 :: c3 :: c4 :: c5 :: rest)
  | _ => false

structure SpamPattern where
  test : List Char → Bool
  category : String
  reason : String

structure SpamCheckResult where
  isSpam : Bool
  category : Option String := none
  reason : Option String := none
deriving DecidableEq, Repr

def str (s : String) : List Char := s.data

/-- `SPAM_PATTERNS` from `src/utils/spam.ts`, in source order. -/
def SPAM_PATTERNS : List SpamPattern := [
  ⟨hasSubCI (str "[url="), "marketing", "Contains URL markup"⟩,
  ⟨hasWordAlt [str "viagra", str "cialis", str "pharmacy"] false, "medical",
    "Contains prohibited medical content"⟩,
  ⟨hasWordAlt [str "casino", str "gambling", str "betting", str "poker"] false,
    "gambling", "Contains gambling content"⟩,
  ⟨hasWordAlt [str "crypto", str "bitcoin", str "ethereum", str "nft"] false,
    "crypto", "Contains cryptocurrency content"⟩,
  ⟨hasDollarAmount, "marketing", "Contains dollar amounts"⟩,
  ⟨hasWordAlt [str "porn", str "xxx"] false, "adult", "Contains adult content"⟩,
  ⟨hasWordAlt [str "adult"] false, "adult", "Contains adult content"⟩,
  ⟨hasSubCI (str "buy now"), "marketing", "Contains promotional content"⟩,
  ⟨hasWordAlt [str "discount"] false, "marketing", "Contains promotional content"⟩,
  ⟨hasSubCI (str "free offer"), "marketing", "Contains promotional content"⟩,
  ⟨hasSubCI (str "limited time"), "marketing", "Contains promotional content"⟩,
  ⟨hasSubCI (str "best price"), "marketing", "Contains promotional content"⟩,
  ⟨hasEarnMakeMoney false, "financial", "Contains financial spam"⟩,
  ⟨hasWordAlt [str "investment"] false, "financial", "Contains financial content"⟩,
  ⟨hasWordAlt [str "profit"] false, "financial", "Contains financial content"⟩,
  ⟨hasWordAlt [str "income"] false, "financial", "Contains financial content"⟩,
  ⟨hasWordAlt [str "rich"] false, "financial", "Contains financial content"⟩,
  ⟨hasRepeat5, "spam", "Contains repetitive characters"⟩,
  ⟨hasArabic5, "spam", "Contains blocks of non-Latin characters"⟩,
  ⟨hasSubCI (str "<script"), "security", "Contains script injection"⟩,
  ⟨hasSubCI (str "javascript:"), "security", "Contains javascript protocol"⟩,
  ⟨hasSubCI (str "data:"), "security", "Contains data protocol"⟩,
  ⟨hasWordAlt [str "whatsapp", str "telegram", str "viber"] false, "spam",
    "Contains external contact methods"⟩]

/-- `checkSpam` from `src/utils/spam.ts`: empty input is never spam, otherwise
the rules are tried in order and the first matching rule's category and reason
are reported. -/
def checkSpam (input : String) : SpamCheckResult :=
  if input = "" then ⟨false, none, none⟩
  else
    match SPAM_PATTERNS.find? (fun p => p.test input.data) with
    | some p => ⟨true, some p.category, some p.reason⟩
    | none => ⟨false, none, none⟩

example : checkSpam "Buy cheap viagra online now" =
    ⟨true, some "medical", some "Contains prohibited medical content"⟩ := by decide
example : checkSpam "Hej! Jag undrar om nästa meetup i Malmö." = ⟨false, none, none⟩ := by
  decide
example : checkSpam "" = ⟨false, none, none⟩ := by decide
example : checkSpam "Visit our casino gambling website now" =
    ⟨true, some "gambling", some "Contains gambling content"⟩ := by decide
example : checkSpam "Save $500 on your order" =
    ⟨true, some "marketing", some "Contains dollar amounts"⟩ := by decide
example : (checkSpam "earn more money fast").isSpam = true := by decide
example : (checkSpam "aaaaargh").isSpam = true := by decide
example : (checkSpam "viagrafoo").isSpam = false := by decide

/-! ## Email shape check (`src/middleware/validate.ts`)

`EMAIL_REGEX = /^[^\s@]+@[^\s@]+\.[^\s@]+$/`.  Anchored, and `@` is excluded
from every character class, so a string matches exactly when it splits as
`local @ domain` with a non-empty all-class local part, a non-empty all-class
domain, and a dot inside the domain that is neither its first nor its last
character. -/

def emailChar (c : Char) : Bool :=
  !isJsWs c && c ≠ '@'

/-- A `.` occurs with at least one character after it (the `\.[^\s@]+$` tail;
called on the domain minus its first character so the dot is not first). -/
def dotThenMore : List Char → Bool
  | [] => false
  | ['.'] => false
  | '.' :: _ :: _ => true
  | _ :: rest => dotThenMore rest

def emailOk (s : List Char) : Bool :=
  let localPart := s.takeWhile emailChar
  match s.dropWhile emailChar with
  | '@' :: domain =>
    !localPart.isEmpty && !domain.isEmpty && domain.all emailChar
      && (match domain with
        | _ :: dtail => dotThenMore dtail
        | [] => false)
  | _ => false

example : emailOk (str "anna@example.com") = true := by decide
example : emailOk (str "a@b.c") = true := by decide
example : emailOk (str "a@b.") = false := by decide
example : emailOk (str "a@.c") = false := by decide
example : emailOk (str "@b.c") = false := by decide
example : emailOk (str "a@b@c.d") = false := by decide
example : emailOk (str "a b@c.d") = false := by decide
example : emailOk (str "abc") = false := by decide

/-! ## Message ledger (`src/db/messages.ts` and `src/db/index.ts`)

The SQLite table is modelled as a list of records.  `AUTOINCREMENT` with no
deletions assigns row ids `1, 2, …`, i.e. `length + 1` for each insert; the
schema defaults give a fresh row status `pending`, `created_at = now` and NULL
(`none`) everywhere else.  Clock reads (`datetime('now')`) are passed in as an
abstract `now : Nat`. -/

inductive Status where
  | pending
  | sent
  | failed
  | spam
deriving DecidableEq, Repr

structure MessageRecord where
  id : Nat
  app : String
  channel : String
  status : Status
  sender_name : Option String
  sender_email : Option String
  subject : Option String
  body : String
  metadata : Option String
  discord_response : Option String
  error : Option String
  ip_address : Option String
  created_at : Nat
  sent_at : Option Nat
deriving DecidableEq, Repr

structure LogMessageData where
  app : String
  channel : String
  body : String
  sender_name : Option String := none
  sender_email : Option String := none
  subject : Option String := none
  metadata : Option String := none
  ip_address : Option String := none
deriving DecidableEq, Repr

/-- The row an insert appends: the supplied columns plus the schema defaults. -/
def newRecord (L : List MessageRecord) (now : Nat) (data : LogMessageData) :
    MessageRecord :=
  { id := L.length + 1
    app := data.app
    channel := data.channel
    status := .pending
    sender_name := data.sender_name
    sender_email := data.sender_email
    subject := data.subject
    body := data.body
    metadata := data.metadata
    discord_response := none
    error := none
    ip_address := data.ip_address
    created_at := now
    sent_at := none }

/-- `logMessage`: insert a row with the schema defaults and report its id
(SQLite `AUTOINCREMENT` with no deletions assigns `length + 1`). -/
def logMessage (L : List MessageRecord) (now : Nat) (data : LogMessageData) :
    Nat × List MessageRecord :=
  (L.length + 1, L ++ [newRecord L now data])

/-- The statuses `updateStatus` accepts (`'sent' | 'failed' | 'spam'`). -/
inductive FinalStatus where
  | sent
  | failed
  | spam
deriving DecidableEq, Repr

def FinalStatus.toStatus : FinalStatus → Status
  | .sent => .sent
  | .failed => .failed
  | .spam => .spam

/-- Effect on the targeted row of the UPDATE statement `updateStatus` picks:
the `sent` statement also sets `sent_at = datetime('now')`; the
`failed`/`spam` statement leaves `sent_at` untouched.  Both overwrite
`discord_response` and `error` with the supplied values (`null` when absent).
The serialisation `JSON.stringify(response)` is abstracted by passing the
response as an already-serialised `Option String`. -/
def applyFinal (now : Nat) (status : FinalStatus)
    (response : Option String) (error : Option String) (r : MessageRecord) :
    MessageRecord :=
  if status = .sent then
    { r with
      status := .sent
      discord_response := response
      error := error
      sent_at := some now }
  else
    { r with
      status := status.toStatus
      discord_response := response
      error := error }

def updateStatus (L : List MessageRecord) (now : Nat) (id : Nat)
    (status : FinalStatus) (response : Option String) (error : Option String) :
    List MessageRecord :=
  L.map fun r => if r.id = id then applyFinal now status response error r else r

structure AppStats where
  totalMessages : Nat
  pending : Nat
  sent : Nat
  failed : Nat
  spam : Nat
  lastMessage : Option Nat
deriving DecidableEq, Repr

def countApp (L : List MessageRecord) (a : String) : Nat :=
  L.countP (fun r => r.app == a)

def countAppStatus (L : List MessageRecord) (a : String) (st : Status) : Nat :=
  L.countP (fun r => r.app == a && r.status == st)

def appNames (L : List MessageRecord) : List String :=
  (L.map (·.app)).dedup

/-- `getStats`: `COUNT(*)` overall plus, per app name (`GROUP BY app`), the
row count, the count of each status (`SUM(CASE WHEN … )`), and the most recent
creation time. -/
def getStats (L : List MessageRecord) : Nat × List (String × AppStats) :=
  (L.length,
    (appNames L).map fun a =>
      (a, {
        totalMessages := countApp L a
        pending := countAppStatus L a .pending
        sent := countAppStatus L a .sent
        failed := countAppStatus L a .failed
        spam := countAppStatus L a .spam
        lastMessage := ((L.filter (fun r => r.app == a)).map (·.created_at)).max? }))

/-- Database states reachable through the store's own operations: any sequence
of `logMessage` inserts and `updateStatus` updates. -/
inductive StoreReach : List MessageRecord → Prop
  | nil : StoreReach []
  | log (L : List MessageRecord) (now : Nat) (data : LogMessageData) :
      StoreReach L → StoreReach (logMessage L now data).2
  | finalize (L : List MessageRecord) (now id : Nat) (st : FinalStatus)
      (resp err : Option String) :
      StoreReach L → StoreReach (updateStatus L now id st resp err)

/-- Ledger states reachable through the orchestrator's usage of the store:
`updateStatus` is only ever applied to a record that is still `pending`
(`POST /api/notify` finalizes each freshly inserted row exactly once; the spec
likewise mandates one mutation from `pending` to a terminal status). -/
inductive PipeReach : List MessageRecord → Prop
  | nil : PipeReach []
  | log (L : List MessageRecord) (now : Nat) (data : LogMessageData) :
      PipeReach L → PipeReach (logMessage L now data).2
  | finalize (L : List MessageRecord) (now id : Nat) (st : FinalStatus)
      (resp err : Option String) :
      PipeReach L → (∀ r ∈ L, r.id = id → r.status = .pending) →
      PipeReach (updateStatus L now id st resp err)

/-! ## Configuration and request types (`src/types.ts`) -/

/-- Discord channel configuration; the optional `defaultEmbed` object with its
optional members is flattened to two options, which is behaviourally identical
to the chained `defaultEmbed?.color` / `defaultEmbed?.footer` reads. -/
structure DiscordChannelConfig where
  webhookUrl : String
  color : Option Nat := none
  footer : Option String := none
deriving DecidableEq, Repr

/-- Slack channel configuration (`defaultFormat` flattened likewise). -/
structure SlackChannelConfig where
  webhookUrl : String
  color : Option String := none
  footer : Option String := none
deriving DecidableEq, Repr

structure Channels where
  discord : Option DiscordChannelConfig := none
  slack : Option SlackChannelConfig := none
deriving DecidableEq, Repr

/-- One caller identity (`AppConfig`); the optional `rateLimit` member plays
no role in the modelled core and is omitted. -/
structure AppConfig where
  name : String
  apiKey : String
  channels : Channels
deriving DecidableEq, Repr

/-- `AppsConfig`: a JS object keyed by app name, modelled as its insertion
ordered entry list (`Object.entries` order). -/
abbrev AppsConfig : Type := List (String × AppConfig)

structure Sender where
  name : Option String := none
  email : Option String := none
deriving DecidableEq, Repr

/-- Metadata: a JS object of scalar values; a `none` value models `null` or
`undefined` (skipped by the adapters), a `some s` models a present scalar
already rendered by `String(value)`. -/
abbrev Metadata : Type := List (String × Option String)

/-- A notify payload as the handler sees it after validation: `channel` and
`body` are present strings, the rest optional. -/
structure NotifyPayload where
  channel : String
  body : String
  subject : Option String := none
  sender : Option Sender := none
  metadata : Option Metadata := none
deriving DecidableEq, Repr

/-! ## Channel adapters (`src/channels/discord.ts`, `src/channels/slack.ts`)

The outbound `fetch` is the adapters' only effect; its result is passed in as
a `FetchOutcome` (a resolved response with status and text, or a thrown
transport error).  `response.ok` is status 200–299. -/

inductive FetchOutcome where
  | ok (status : Nat) (bodyText : String)
  | threw (message : String)
deriving DecidableEq, Repr

def respOk (status : Nat) : Bool :=
  200 ≤ status && status < 300

structure ChannelResult where
  success : Bool
  response : Option String := none
  error : Option String := none
deriving DecidableEq, Repr

/-- JavaScript `body.slice(0, 50)` counts UTF-16 units; a character only half
inside the window is dropped (the service's validated inputs never place a
supplementary-plane character astride the boundary). -/
def takeUtf16 : Nat → List Char → List Char
  | _, [] => []
  | n, c :: cs => if utf16Len c ≤ n then c :: takeUtf16 (n - utf16Len c) cs else []

/-- Shared title rule: the subject if truthy, else the body truncated to 50
units with a `...` suffix when it was longer. -/
def channelTitle (subject : Option String) (body : String) : String :=
  let fromBody :=
    if jsLength body.data > 50 then String.mk (takeUtf16 50 body.data) ++ "..."
    else body
  match subject with
  | some s => if s ≠ "" then s else fromBody
  | none => fromBody

/-- Sender/metadata fields shared by both adapters: truthy sender name and
email become labelled fields, then every metadata entry with a non-null,
non-undefined value, keyed by its original key. -/
def senderFields (labelName labelEmail : String) (sender : Option Sender) :
    List (String × String) :=
  match sender with
  | some snd =>
    (match snd.name with
      | some n => if n ≠ "" then [(labelName, n)] else []
      | none => []) ++
    (match snd.email with
      | some e => if e ≠ "" then [(labelEmail, e)] else []
      | none => [])
  | none => []

def metadataFields (metadata : Option Metadata) : List (String × String) :=
  match metadata with
  | some md => md.filterMap fun kv => kv.2.map fun v => (kv.1, v)
  | none => []

/-- The Discord embed `sendDiscord` posts (its `timestamp` member, a clock
read, is not modelled). -/
structure DiscordEmbed where
  title : String
  description : String
  color : Nat
  fields : List (String × String)
  footerText : String
deriving DecidableEq, Repr

def buildDiscordEmbed (cfg : DiscordChannelConfig) (payload : NotifyPayload)
    (appName : String) : DiscordEmbed :=
  { title := channelTitle payload.subject payload.body
    description := payload.body
    color := cfg.color.getD 5814783
    fields := senderFields "Från" "Email" payload.sender
      ++ metadataFields payload.metadata
    footerText :=
      match cfg.footer with
      | some f => if f ≠ "" then f ++ " | Dispatch" else appName ++ " | Dispatch"
      | none => appName ++ " | Dispatch" }

/-- Result semantics of `sendDiscord`: 2xx is success; any other status is a
failure whose error carries the status and response text; a thrown transport
error is a failure carrying the error message.  The function is total — the
`try`/`catch` in the source converts every failure into the result shape. -/
def sendDiscord (_cfg : DiscordChannelConfig) (_payload : NotifyPayload)
    (_appName : String) (outcome : FetchOutcome) : ChannelResult :=
  match outcome with
  | .ok status text =>
    if respOk status then { success := true }
    else
      { success := false
        error := some ("Discord webhook returned " ++ toString status ++ ": " ++ text) }
  | .threw msg => { success := false, error := some msg }

/-- The Slack Block Kit message `sendSlack` posts (context timestamp not
modelled). -/
structure SlackMessage where
  title : String
  body : String
  fields : List String
  color : String
  footerText : String
deriving DecidableEq, Repr

def buildSlackMessage (cfg : SlackChannelConfig) (payload : NotifyPayload)
    (appName : String) : SlackMessage :=
  { title := channelTitle payload.subject payload.body
    body := payload.body
    fields :=
      (senderFields "From" "Email" payload.sender ++ metadataFields payload.metadata).map
        fun kv => "*" ++ kv.1 ++ ":*\n" ++ kv.2
    color := cfg.color.getD "#58B9FF"
    footerText :=
      match cfg.footer with
      | some f => if f ≠ "" then f ++ " | Dispatch" else appName ++ " | Dispatch"
      | none => appName ++ " | Dispatch" }

/-- Result semantics of `sendSlack`, mirroring `sendDiscord`. -/
def sendSlack (_cfg : SlackChannelConfig) (_payload : NotifyPayload)
    (_appName : String) (outcome : FetchOutcome) : ChannelResult :=
  match outcome with
  | .ok status text =>
    if respOk status then { success := true }
    else
      { success := false
        error := some ("Slack webhook returned " ++ toString status ++ ": " ++ text) }
  | .threw msg => { success := false, error := some msg }

/-! ## Authentication middleware (`src/middleware/authenticate.ts`,
`src/config/loader.ts`) -/

/-- A JS `Map.set`: replace the value at an existing key in place, otherwise
append. -/
def mapSet (m : List (String × String × AppConfig)) (k : String)
    (v : String × AppConfig) : List (String × String × AppConfig) :=
  if m.any (fun kv => kv.1 == k) then
    m.map fun kv => if kv.1 == k then (k, v) else kv
  else m ++ [(k, v)]

/-- `appName.startsWith('_')`. -/
def underscoreName (s : String) : Bool :=
  match s.data with
  | c :: _ => c = '_'
  | [] => false

/-- `buildKeyIndex` from `src/config/loader.ts`: a map from API key to
`(appName, appConfig)`, skipping documentation entries whose name starts with
an underscore. -/
def buildKeyIndex (config : AppsConfig) : List (String × String × AppConfig) :=
  config.foldl
    (fun idx kv =>
      if underscoreName kv.1 then idx else mapSet idx kv.2.apiKey (kv.1, kv.2))
    []

inductive AuthOutcome where
  | missingKey
  | invalidKey
  | admin
  | caller (appName : String) (appConfig : AppConfig)
deriving DecidableEq, Repr

/-- `createAuthMiddleware`: a missing (or empty, hence falsy) `X-API-Key`
header is rejected; the admin key is tried first with `safeCompare`; otherwise
the key index is scanned in insertion order and the first `safeCompare` match
resolves the caller; no match is rejected. -/
def authenticate (config : AppsConfig) (adminApiKey : String)
    (apiKey : Option String) : AuthOutcome :=
  match apiKey with
  | none => .missingKey
  | some k =>
    if k = "" then .missingKey
    else if safeCompare k adminApiKey then .admin
    else
      match (buildKeyIndex config).find? (fun e => safeCompare k e.1) with
      | some e => .caller e.2.1 e.2.2
      | none => .invalidKey

/-! ## Validation middleware (`src/middleware/validate.ts`) -/

inductive VError where
  | validation (message : String)
  | invalidChannel (message : String)
deriving DecidableEq, Repr

instance {ε α : Type} [DecidableEq ε] [DecidableEq α] :
    DecidableEq (Except ε α) := fun a b =>
  match a, b with
  | .ok x, .ok y =>
    if h : x = y then isTrue (by rw [h]) else isFalse (by simp [h])
  | .error e, .error f =>
    if h : e = f then isTrue (by rw [h]) else isFalse (by simp [h])
  | .ok _, .error _ => isFalse (by simp)
  | .error _, .ok _ => isFalse (by simp)

/-- Own properties of `Object.prototype`: a plain object's property lookup
falls through to these when the key is not an own property, and every one of
them is truthy (a function, or for `__proto__` the prototype object). -/
def objectProtoKeys : List String :=
  ["constructor", "hasOwnProperty", "isPrototypeOf", "propertyIsEnumerable",
    "toLocaleString", "toString", "valueOf", "__defineGetter__",
    "__defineSetter__", "__lookupGetter__", "__lookupSetter__", "__proto__"]

/-- Truthiness of `appConfig.channels[channel]` in JavaScript: the two own
properties when configured, otherwise the inherited `Object.prototype`
members. -/
def channelTruthy (ch : Channels) (name : String) : Bool :=
  match name with
  | "discord" => ch.discord.isSome
  | "slack" => ch.slack.isSome
  | _ => objectProtoKeys.contains name

/-- The `sender.email` branch: sanitize (trim + lower-case), then test
`EMAIL_REGEX`; on success the sanitized value replaces the original. -/
def checkEmail : Option String → Except VError (Option String)
  | none => .ok none
  | some em =>
    let s := sanitizeEmail em
    if emailOk s.data then .ok (some s)
    else .error (.validation "Field 'sender.email' must be a valid email address")

/-- The `if (sender)` block: `sender.name`, when present, is sanitized and must
be 2–100 characters (the sanitized value replaces the original); then
`sender.email`, when present, is checked by `checkEmail`. -/
def validateSender : Option Sender → Except VError (Option Sender)
  | none => .ok none
  | some snd =>
    match snd.name with
    | some nm =>
      let sanitizedName := sanitize nm
      if jsLength sanitizedName.data < 2 then
        .error (.validation "Field 'sender.name' must be 2-100 characters")
      else if jsLength sanitizedName.data > 100 then
        .error (.validation "Field 'sender.name' must be 2-100 characters")
      else
        match checkEmail snd.email with
        | .error e => .error e
        | .ok em2 => .ok (some { name := some sanitizedName, email := em2 })
    | none =>
      match checkEmail snd.email with
      | .error e => .error e
      | .ok em2 => .ok (some { name := none, email := em2 })

/-- A raw `req.body` before validation: every field may be absent. -/
structure RawRequest where
  channel : Option String := none
  body : Option String := none
  subject : Option String := none
  sender : Option Sender := none
  metadata : Option Metadata := none
deriving DecidableEq, Repr

/-- The field checks of `createValidateMiddleware`, in source order: `channel`
truthy; `body` truthy; body sanitized and 10–2000 units long; sanitized
subject (a falsy subject is left alone) at most 200 units; sender name/email
checks.  Produces the payload with the sanitized values, as the middleware
rewrites `req.body` in place.  The channel-availability check, which the
source performs after all of these, is layered on top in `validate`. -/
def validateFields (req : RawRequest) : Except VError NotifyPayload :=
  match req.channel with
  | none => .error (.validation "Field 'channel' is required")
  | some channel =>
    if channel = "" then .error (.validation "Field 'channel' is required")
    else
      match req.body with
      | none =>
        .error (.validation "Field 'body' is required and must be 10-2000 characters")
      | some body =>
        if body = "" then
          .error (.validation "Field 'body' is required and must be 10-2000 characters")
        else
          let sanitizedBody := sanitize body
          let sanitizedSubject :=
            match req.subject with
            | some s => if s ≠ "" then some (sanitize s) else none
            | none => none
          if jsLength sanitizedBody.data < 10 then
            .error (.validation "Field 'body' is required and must be 10-2000 characters")
          else if jsLength sanitizedBody.data > 2000 then
            .error (.validation "Field 'body' must not exceed 2000 characters")
          else if (match sanitizedSubject with
              | some t => t ≠ "" && jsLength t.data > 200
              | none => false) then
            .error (.validation "Field 'subject' must not exceed 200 characters")
          else
            match validateSender req.sender with
            | .error e => .error e
            | .ok sender2 =>
              .ok {
                channel := channel
                body := sanitizedBody
                subject :=
                  match sanitizedSubject with
                  | some t => some t
                  | none => req.subject
                sender := sender2
                metadata := req.metadata }

/-- `createValidateMiddleware`: the field checks of `validateFields`, and then
— last, exactly as in the source — the channel-availability check against the
caller's config, skipped when no `appConfig` was attached to the request (the
admin path). -/
def validate (req : RawRequest) (appConfig : Option AppConfig) :
    Except VError NotifyPayload :=
  match validateFields req with
  | .error e => .error e
  | .ok v =>
    if (match appConfig with
        | some cfg => !channelTruthy cfg.channels v.channel
        | none => false) then
      .error (.invalidChannel
        ("Channel '" ++ sanitize v.channel ++ "' is not configured for this app"))
    else .ok v

/-! ## Dispatch orchestrator (`src/app.ts`, `POST /api/notify`) -/

/-- Caller-visible outcomes of one notify request, one constructor per
`res.…json(…)` site of the route (plus `internalError` for an exception
thrown out of the handler, which Express surfaces as a generic 500). -/
inductive Response where
  | unauthorized (message : String)
  | validationError (message : String)
  | invalidChannelCfg (message : String)
  | spamDetected
  | unsupportedChannel (channel : String)
  | success (messageId : Nat) (channel : String)
  | channelError (message : String)
  | internalError
deriving DecidableEq, Repr

def VError.toResponse : VError → Response
  | .validation m => .validationError m
  | .invalidChannel m => .invalidChannelCfg m

/-- An outbound webhook call issued by a channel adapter. -/
inductive AdapterCall where
  | discord (webhookUrl : String) (embed : DiscordEmbed)
  | slack (webhookUrl : String) (msg : SlackMessage)
deriving DecidableEq, Repr

structure PipelineResult where
  response : Response
  ledger : List MessageRecord
  calls : List AdapterCall
deriving DecidableEq, Repr

/-- Surrogate for `JSON.stringify` of the metadata object; no claim depends
on the rendering. -/
def stringifyMetadata (md : Metadata) : String :=
  String.intercalate ","
    (md.map fun kv => kv.1 ++ ":" ++ (match kv.2 with
      | some v => v
      | none => "null"))

/-- The argument object of both `messageStore.logMessage` calls in the route. -/
def toLogData (appName : String) (v : NotifyPayload) (ip : Option String) :
    LogMessageData :=
  { app := appName
    channel := v.channel
    body := v.body
    sender_name := v.sender.bind (·.name)
    sender_email := v.sender.bind (·.email)
    subject := v.subject
    metadata := v.metadata.map stringifyMetadata
    ip_address := ip }

/-- The tail of the route after the adapter returned: finalize to `sent`
(storing the adapter's response, the `error` column reset to NULL) and answer
success, or finalize to `failed` (storing the adapter's error text) and answer
a 502 delivery error. -/
def finishDelivery (messageId : Nat) (channel : String) (result : ChannelResult)
    (L : List MessageRecord) (calls : List AdapterCall) (now : Nat) :
    PipelineResult :=
  if result.success then
    ⟨.success messageId channel,
      updateStatus L now messageId .sent result.response none, calls⟩
  else
    ⟨.channelError (result.error.getD "Channel delivery failed"),
      updateStatus L now messageId .failed none result.error, calls⟩

/-- The `POST /api/notify` handler body, after `authenticate` and `validate`
have run.  `ctx` is the `(appName, appConfig)` pair the auth middleware
attaches for a caller, and is `none` on the admin path, where the route reads
`undefined`: there `logMessage` binds `app: undefined`, which better-sqlite3
rejects by throwing before any row is inserted, so the request dies with an
internal error, the ledger unchanged (`internalError`).  Likewise a channel
whose config object is absent would throw on destructuring (unreachable after
validation).  The adapter's `fetch` outcome is the `outcome` parameter. -/
def notifyHandler (ctx : Option (String × AppConfig)) (v : NotifyPayload)
    (outcome : FetchOutcome) (ip : Option String) (now : Nat)
    (L : List MessageRecord) : PipelineResult :=
  let spamResult := checkSpam v.body
  if spamResult.isSpam then
    match ctx with
    | none => ⟨.internalError, L, []⟩
    | some (appName, _) =>
      let ins := logMessage L now (toLogData appName v ip)
      ⟨.spamDetected,
        updateStatus ins.2 now ins.1 .spam none spamResult.reason, []⟩
  else
    match ctx with
    | none => ⟨.internalError, L, []⟩
    | some (appName, appConfig) =>
      let ins := logMessage L now (toLogData appName v ip)
      if v.channel = "discord" then
        match appConfig.channels.discord with
        | none => ⟨.internalError, ins.2, []⟩
        | some dcfg =>
          finishDelivery ins.1 v.channel (sendDiscord dcfg v appName outcome)
            ins.2 [.discord dcfg.webhookUrl (buildDiscordEmbed dcfg v appName)] now
      else if v.channel = "slack" then
        match appConfig.channels.slack with
        | none => ⟨.internalError, ins.2, []⟩
        | some scfg =>
          finishDelivery ins.1 v.channel (sendSlack scfg v appName outcome)
            ins.2 [.slack scfg.webhookUrl (buildSlackMessage scfg v appName)] now
      else
        ⟨.unsupportedChannel v.channel,
          updateStatus ins.2 now ins.1 .failed none
            (some ("Unsupported channel: " ++ v.channel)), []⟩

/-- The full notify pipeline: authentication, validation, then the handler.
Both middlewares answer errors without touching the store. -/
def notifyPipeline (config : AppsConfig) (adminApiKey : String)
    (apiKey : Option String) (req : RawRequest) (outcome : FetchOutcome)
    (ip : Option String) (now : Nat) (L : List MessageRecord) : PipelineResult :=
  match authenticate config adminApiKey apiKey with
  | .missingKey => ⟨.unauthorized "Missing API key. Provide X-API-Key header.", L, []⟩
  | .invalidKey => ⟨.unauthorized "Invalid API key.", L, []⟩
  | .admin =>
    match validate req none with
    | .error e => ⟨e.toResponse, L, []⟩
    | .ok v => notifyHandler none v outcome ip now L
  | .caller appName appConfig =>
    match validate req (some appConfig) with
    | .error e => ⟨e.toResponse, L, []⟩
    | .ok v => notifyHandler (some (appName, appConfig)) v outcome ip now L

/-! ### A concrete configuration for witnesses, mirroring the repository's
integration test fixture -/

def testDiscordCfg : DiscordChannelConfig :=
  { webhookUrl := "https://discord.com/api/webhooks/test/token"
    color := some 5814783
    footer := some "Via Test App" }

def testSlackCfg : SlackChannelConfig :=
  { webhookUrl := "https://hooks.slack.com/services/T00/B00/test"
    color := some "#36a64f"
    footer := some "Via Test App" }

def testApp : AppConfig :=
  { name := "Test Application"
    apiKey := "dk_test_abc123secret"
    channels := { discord := some testDiscordCfg, slack := some testSlackCfg } }

def testConfig : AppsConfig := [("test-app", testApp)]

def testAdminKey : String := "dk_admin_testkey123"

def validRaw : RawRequest :=
  { channel := some "discord"
    body := some "This is a valid body message with enough characters" }

example :
    authenticate testConfig testAdminKey (some "dk_test_abc123secret")
      = .caller "test-app" testApp := by decide
example :
    authenticate testConfig testAdminKey (some testAdminKey) = .admin := by decide
example :
    authenticate testConfig testAdminKey (some "dk_fake_invalidkey") = .invalidKey := by
  decide
example : authenticate testConfig testAdminKey none = .missingKey := by decide

example :
    (notifyPipeline testConfig testAdminKey (some "dk_test_abc123secret") validRaw
      (.ok 204 "") none 7 []).response = .success 1 "discord" := by decide

example :
    (notifyPipeline testConfig testAdminKey (some "dk_test_abc123secret") validRaw
      (.ok 429 "Rate limited") none 7 []).response
      = .channelError "Discord webhook returned 429: Rate limited" := by decide

/-! ## Helper lemmas about the ledger -/

theorem applyFinal_id (now : Nat) (st : FinalStatus) (resp err : Option String)
    (r : MessageRecord) : (applyFinal now st resp err r).id = r.id := by
  unfold applyFinal; split <;> rfl

theorem updateStatus_length (L : List MessageRecord) (now id : Nat)
    (st : FinalStatus) (resp err : Option String) :
    (updateStatus L now id st resp err).length = L.length := by
  simp [updateStatus]

/-- In every store-reachable ledger the row ids are bounded by the length
(each insert is assigned `length + 1`, updates keep ids). -/
theorem storeReach_id_le : ∀ {L : List MessageRecord}, StoreReach L →
    ∀ r ∈ L, r.id ≤ L.length := by
  intro L h
  induction h with
  | nil => intro r hr; simp at hr
  | log M now data _ ih =>
    intro r hr
    simp only [logMessage, List.mem_append, List.mem_singleton] at hr
    simp only [logMessage, List.length_append, List.length_singleton]
    rcases hr with h1 | h2
    · have := ih r h1; omega
    · subst h2; simp [newRecord]
  | finalize M now id st resp err _ ih =>
    intro r hr
    simp only [updateStatus, List.mem_map] at hr
    obtain ⟨x, hx, hfx⟩ := hr
    rw [updateStatus_length]
    by_cases hid : x.id = id
    · rw [if_pos hid] at hfx
      have : r.id = x.id := by rw [← hfx, applyFinal_id]
      rw [this]; exact ih x hx
    · rw [if_neg hid] at hfx
      subst hfx; exact ih x hx

/-- Updating a freshly appended row leaves the earlier rows untouched. -/
theorem updateStatus_append_fresh (L : List MessageRecord) (now : Nat)
    (st : FinalStatus) (resp err : Option String) (r : MessageRecord)
    (hids : ∀ x ∈ L, x.id ≤ L.length) (hr : r.id = L.length + 1) :
    updateStatus (L ++ [r]) now (L.length + 1) st resp err
      = L ++ [applyFinal now st resp err r] := by
  unfold updateStatus
  rw [List.map_append]
  congr 1
  · have : ∀ x ∈ L,
        (if x.id = L.length + 1 then applyFinal now st resp err x else x) = id x := by
      intro x hx
      have := hids x hx
      simp only [id]
      rw [if_neg (by omega)]
    rw [List.map_congr_left this, List.map_id]
  · simp [hr]

theorem pipeReach_storeReach : ∀ {L : List MessageRecord}, PipeReach L →
    StoreReach L := by
  intro L h
  induction h with
  | nil => exact .nil
  | log M now data _ ih => exact .log M now data ih
  | finalize M now id st resp err _ _ ih => exact .finalize M now id st resp err ih

/-! ## C7: `sent_at` is set iff the status is `sent` -/

/-- C7.  In every ledger state reachable through the orchestrator's use of the
store (insert via `logMessage`; `updateStatus` applied to rows that are still
`pending`, as `POST /api/notify` finalizes each freshly created row exactly
once), a record's `sent_at` is set if and only if its status is `sent`:
insertion leaves it unset with status `pending`, finalizing to `sent` sets it,
and finalizing to `failed` or `spam` leaves it unset. -/
theorem sent_at_iff_sent {L : List MessageRecord} (h : PipeReach L) :
    ∀ r ∈ L, (r.sent_at.isSome ↔ r.status = Status.sent) := by
  induction h with
  | nil => intro r hr; simp at hr
  | log M now data _ ih =>
    intro r hr
    simp only [logMessage, List.mem_append, List.mem_singleton] at hr
    rcases hr with h1 | h2
    · exact ih r h1
    · subst h2; simp [newRecord]
  | finalize M now id st resp err _ hpend ih =>
    intro r hr
    simp only [updateStatus, List.mem_map] at hr
    obtain ⟨x, hx, hfx⟩ := hr
    by_cases hid : x.id = id
    · rw [if_pos hid] at hfx
      have hxp := hpend x hx hid
      have hxnone : x.sent_at = none := by
        cases hsa : x.sent_at with
        | none => rfl
        | some t =>
          have := (ih x hx).mp (by rw [hsa]; rfl)
          rw [hxp] at this
          exact absurd this (by simp)
      subst hfx
      cases st with
      | sent => simp [applyFinal]
      | failed => simp [applyFinal, FinalStatus.toStatus, hxnone]
      | spam => simp [applyFinal, FinalStatus.toStatus, hxnone]
    · rw [if_neg hid] at hfx
      subst hfx
      exact ih x hx

def testLogData : LogMessageData :=
  { app := "test-app"
    channel := "discord"
    body := "This is a valid body message with enough characters" }

/-- A small concrete ledger: one row inserted and finalized to `sent`. -/
def testSentLedger : List MessageRecord :=
  updateStatus (logMessage [] 5 testLogData).2 6 1 .sent (some "ok") none

theorem testSentLedger_pipeReach : PipeReach testSentLedger := by
  refine .finalize (logMessage [] 5 testLogData).2 6 1 .sent (some "ok") none
    (.log [] 5 testLogData .nil) ?_
  intro r hr _
  simp only [logMessage, List.nil_append, List.mem_singleton] at hr
  subst hr; rfl

/-- Witness for C7 at a concrete reachable ledger and record. -/
theorem sent_at_iff_sent_witness :
    ((testSentLedger.get ⟨0, by decide⟩).sent_at.isSome
      ↔ (testSentLedger.get ⟨0, by decide⟩).status = Status.sent) :=
  sent_at_iff_sent testSentLedger_pipeReach _ (List.get_mem _ _ (by decide))

/-! ## C10: `getStats` counts are consistent -/

theorem countApp_partition (L : List MessageRecord) (a : String) :
    countAppStatus L a .pending + countAppStatus L a .sent
      + countAppStatus L a .failed + countAppStatus L a .spam = countApp L a := by
  induction L with
  | nil => rfl
  | cons r L ih =>
    simp only [countAppStatus, countApp, List.countP_cons] at ih ⊢
    by_cases ha : r.app == a <;> cases hst : r.status <;>
      simp [ha, hst] <;> omega

theorem sum_count_dedup (l : List String) :
    (l.dedup.map fun x => l.count x).sum = l.length := by
  classical
  have h := Multiset.toFinset_sum_count_eq (l : Multiset String)
  simpa [Multiset.toFinset, Finset.sum, Multiset.coe_dedup] using h

/-- C10.  For every database state reachable through the store's own
operations, `getStats` reports, per app, status counts that sum to that app's
`totalMessages`, and a grand `totalMessages` equal to the sum of the per-app
totals. -/
theorem getStats_consistent (L : List MessageRecord) (_ : StoreReach L) :
    (∀ p ∈ (getStats L).2,
      p.2.pending + p.2.sent + p.2.failed + p.2.spam = p.2.totalMessages)
    ∧ (getStats L).1 = ((getStats L).2.map fun p => p.2.totalMessages).sum := by
  constructor
  · intro p hp
    simp only [getStats, List.mem_map] at hp
    obtain ⟨a, _, hpa⟩ := hp
    rw [← hpa]
    exact countApp_partition L a
  · simp only [getStats, List.map_map]
    have hcomp :
        ((fun p : String × AppStats => p.2.totalMessages) ∘
          fun a => (a, ({
            totalMessages := countApp L a
            pending := countAppStatus L a .pending
            sent := countAppStatus L a .sent
            failed := countAppStatus L a .failed
            spam := countAppStatus L a .spam
            lastMessage := ((L.filter (fun r => r.app == a)).map (·.created_at)).max? } : AppStats)))
          = fun a => countApp L a := rfl
    rw [hcomp]
    have hcount : (fun a => countApp L a) = fun a => (L.map (·.app)).count a := by
      funext a
      simp only [countApp, List.count]
      exact (List.countP_map (· == a) (·.app) L).symm
    rw [appNames, hcount, sum_count_dedup (L.map (·.app)), List.length_map]

/-- Witness for C10: the grand total equals the per-app sum on a concrete
reachable ledger. -/
theorem getStats_consistent_witness :
    (getStats testSentLedger).1
      = ((getStats testSentLedger).2.map fun p => p.2.totalMessages).sum :=
  (getStats_consistent testSentLedger
    (pipeReach_storeReach testSentLedger_pipeReach)).2

/-! ## Helper lemmas about the pipeline -/

/-- Validation success implies the request's channel was configured for the
caller (this is the last check the middleware performs). -/
theorem validate_ok_channelTruthy (req : RawRequest) (c : AppConfig)
    (v : NotifyPayload) (h : validate req (some c) = .ok v) :
    channelTruthy c.channels v.channel = true := by
  unfold validate at h
  cases hf : validateFields req with
  | error e => rw [hf] at h; exact absurd h (by simp)
  | ok w =>
    rw [hf] at h
    by_cases hb : channelTruthy c.channels w.channel
    · simp only [hb, Bool.not_true, Bool.false_eq_true, if_false] at h
      cases h
      exact hb
    · simp only [Bool.not_eq_true] at hb
      simp [hb] at h

/-- Inserting a row and finalizing that same row appends exactly one record. -/
theorem logUpdate_fresh (L : List MessageRecord) (now : Nat)
    (data : LogMessageData) (st : FinalStatus) (resp err : Option String)
    (hids : ∀ x ∈ L, x.id ≤ L.length) :
    updateStatus (logMessage L now data).2 now (logMessage L now data).1 st resp err
      = L ++ [applyFinal now st resp err (newRecord L now data)] := by
  simp only [logMessage]
  exact updateStatus_append_fresh L now st resp err _ hids rfl

theorem applyFinal_status (now : Nat) (st : FinalStatus) (resp err : Option String)
    (r : MessageRecord) : (applyFinal now st resp err r).status = st.toStatus := by
  unfold applyFinal
  split
  · subst ‹st = .sent›; rfl
  · rfl

/-- On the caller path, the handler appends exactly one finalized copy of the
freshly inserted row: `spam` on the spam path, `sent` or `failed` (matching
the adapter result) otherwise. -/
theorem notifyHandler_caller (a : String) (c : AppConfig) (v : NotifyPayload)
    (outcome : FetchOutcome) (ip : Option String) (now : Nat)
    (L : List MessageRecord)
    (hids : ∀ x ∈ L, x.id ≤ L.length)
    (hchan : channelTruthy c.channels v.channel = true) :
    ∃ (st : FinalStatus) (resp err : Option String),
      (notifyHandler (some (a, c)) v outcome ip now L).ledger
        = L ++ [applyFinal now st resp err (newRecord L now (toLogData a v ip))]
      ∧ ((checkSpam v.body).isSpam = true → st = .spam)
      ∧ ((checkSpam v.body).isSpam = false → st = .sent ∨ st = .failed) := by
  by_cases hspam : (checkSpam v.body).isSpam = true
  · refine ⟨.spam, none, (checkSpam v.body).reason, ?_, fun _ => rfl, ?_⟩
    · simp only [notifyHandler, hspam, if_true,
        logUpdate_fresh L now _ _ _ _ hids]
    · intro hc; rw [hspam] at hc; cases hc
  · have hspam' : (checkSpam v.body).isSpam = false := by simpa using hspam
    by_cases hd : v.channel = "discord"
    · have hds : c.channels.discord.isSome := by
        rw [hd] at hchan; simpa [channelTruthy] using hchan
      obtain ⟨dcfg, hdc⟩ := Option.isSome_iff_exists.mp hds
      by_cases hsucc : (sendDiscord dcfg v a outcome).success = true
      · refine ⟨.sent, (sendDiscord dcfg v a outcome).response, none, ?_,
          ?_, fun _ => Or.inl rfl⟩
        · simp only [notifyHandler, hspam', Bool.false_eq_true, if_false, hd,
            if_pos, hdc, finishDelivery, hsucc, if_true,
            logUpdate_fresh L now _ _ _ _ hids]
        · intro hc; rw [hspam'] at hc; cases hc
      · refine ⟨.failed, none, (sendDiscord dcfg v a outcome).error, ?_,
          ?_, fun _ => Or.inr rfl⟩
        · simp only [notifyHandler, hspam', Bool.false_eq_true, if_false, hd,
            if_pos, hdc, finishDelivery, hsucc,
            logUpdate_fresh L now _ _ _ _ hids]
        · intro hc; rw [hspam'] at hc; cases hc
    · by_cases hs : v.channel = "slack"
      · have hss : c.channels.slack.isSome := by
          rw [hs] at hchan; simpa [channelTruthy] using hchan
        obtain ⟨scfg, hsc⟩ := Option.isSome_iff_exists.mp hss
        by_cases hsucc : (sendSlack scfg v a outcome).success = true
        · refine ⟨.sent, (sendSlack scfg v a outcome).response, none, ?_,
            ?_, fun _ => Or.inl rfl⟩
          · simp only [notifyHandler, hspam', Bool.false_eq_true, if_false, hd,
              hs, if_pos, hsc, finishDelivery, hsucc, if_true,
              logUpdate_fresh L now _ _ _ _ hids]
            rw [if_neg (show ¬("slack" = "discord") by decide)]
          · intro hc; rw [hspam'] at hc; cases hc
        · refine ⟨.failed, none, (sendSlack scfg v a outcome).error, ?_,
            ?_, fun _ => Or.inr rfl⟩
          · simp only [notifyHandler, hspam', Bool.false_eq_true, if_false, hd,
              hs, if_pos, hsc, finishDelivery, hsucc,
              logUpdate_fresh L now _ _ _ _ hids]
            rw [if_neg (show ¬("slack" = "discord") by decide)]
          · intro hc; rw [hspam'] at hc; cases hc
      · refine ⟨.failed, none, some ("Unsupported channel: " ++ v.channel), ?_,
          ?_, fun _ => Or.inr rfl⟩
        · simp only [notifyHandler, hspam', Bool.false_eq_true, if_false, hd,
            hs, logUpdate_fresh L now _ _ _ _ hids]
        · intro hc; rw [hspam'] at hc; cases hc

/-! ## C3: every accepted request yields exactly one terminal record -/

/-- C3.  For every request that authenticates as a caller and passes
validation (an accepted NotifyRequest in the spec's sense — the spec's own
step 1 bars admin identities from notify), exactly one Message Record is
appended to the ledger, it carries exactly one terminal status when the
pipeline returns, and on the non-spam path that status is `sent` xor
`failed`. -/
theorem accepted_request_single_terminal_record
    (config : AppsConfig) (adminApiKey k a : String) (c : AppConfig)
    (req : RawRequest) (v : NotifyPayload) (outcome : FetchOutcome)
    (ip : Option String) (now : Nat) (L : List MessageRecord)
    (hreach : StoreReach L)
    (hauth : authenticate config adminApiKey (some k) = .caller a c)
    (hval : validate req (some c) = .ok v) :
    ∃ r : MessageRecord,
      (notifyPipeline config adminApiKey (some k) req outcome ip now L).ledger
        = L ++ [r]
      ∧ (r.status = .sent ∨ r.status = .failed ∨ r.status = .spam)
      ∧ ((checkSpam v.body).isSpam = false →
          ((r.status = .sent ∧ r.status ≠ .failed)
            ∨ (r.status = .failed ∧ r.status ≠ .sent))) := by
  have hids := storeReach_id_le hreach
  have hchan := validate_ok_channelTruthy req c v hval
  obtain ⟨st, resp, err, hled, hsp, hnsp⟩ :=
    notifyHandler_caller a c v outcome ip now L hids hchan
  refine ⟨applyFinal now st resp err (newRecord L now (toLogData a v ip)), ?_, ?_, ?_⟩
  · simpa only [notifyPipeline, hauth, hval] using hled
  · rw [applyFinal_status]
    cases st with
    | sent => exact Or.inl rfl
    | failed => exact Or.inr (Or.inl rfl)
    | spam => exact Or.inr (Or.inr rfl)
  · intro hns
    rw [applyFinal_status]
    rcases hnsp hns with h1 | h1 <;> subst h1
    · exact Or.inl ⟨rfl, by decide⟩
    · exact Or.inr ⟨rfl, by decide⟩

/-- Witness for C3 at the fixture configuration: the accepted request appends
exactly one record to the empty ledger. -/
theorem accepted_request_single_terminal_record_witness :
    (notifyPipeline testConfig testAdminKey (some "dk_test_abc123secret")
      validRaw (.ok 204 "") none 7 []).ledger.length = 1 := by
  obtain ⟨r, hr, -, -⟩ :=
    accepted_request_single_terminal_record testConfig testAdminKey
      "dk_test_abc123secret" "test-app" testApp validRaw
      { channel := "discord"
        body := "This is a valid body message with enough characters" }
      (.ok 204 "") none 7 [] .nil (by decide) (by decide)
  rw [hr]
  rfl

/-! ## C4: spam is audited, rejected, and never delivered -/

/-- C4.  For every caller-authenticated, validated request whose (sanitized)
body the classifier flags as spam, exactly one Message Record is created and
finalized to `spam` with the classifier's reason as its error text, the
request is rejected with the spam error, and no outbound adapter call is
made. -/
theorem spam_request_audited_not_delivered
    (config : AppsConfig) (adminApiKey k a : String) (c : AppConfig)
    (req : RawRequest) (v : NotifyPayload) (outcome : FetchOutcome)
    (ip : Option String) (now : Nat) (L : List MessageRecord)
    (cat reason : Option String)
    (hreach : StoreReach L)
    (hauth : authenticate config adminApiKey (some k) = .caller a c)
    (hval : validate req (some c) = .ok v)
    (hspam : checkSpam v.body = ⟨true, cat, reason⟩) :
    ∃ r : MessageRecord,
      notifyPipeline config adminApiKey (some k) req outcome ip now L
        = ⟨.spamDetected, L ++ [r], []⟩
      ∧ r.status = .spam ∧ r.error = reason := by
  have hids := storeReach_id_le hreach
  refine ⟨applyFinal now .spam none reason (newRecord L now (toLogData a v ip)),
    ?_, rfl, rfl⟩
  simp only [notifyPipeline, hauth, hval]
  unfold notifyHandler
  rw [hspam]
  simp only [if_true, logUpdate_fresh L now _ _ _ _ hids]

/-- Witness for C4: a viagra advertisement is persisted as `spam` and no
adapter call is made. -/
theorem spam_request_audited_not_delivered_witness :
    (notifyPipeline testConfig testAdminKey (some "dk_test_abc123secret")
      { channel := some "discord", body := some "Buy cheap viagra online now and more" }
      (.ok 204 "") none 7 []).calls = [] := by
  obtain ⟨r, hr, -, -⟩ :=
    spam_request_audited_not_delivered testConfig testAdminKey
      "dk_test_abc123secret" "test-app" testApp
      { channel := some "discord", body := some "Buy cheap viagra online now and more" }
      { channel := "discord", body := "Buy cheap viagra online now and more" }
      (.ok 204 "") none 7 [] (some "medical")
      (some "Contains prohibited medical content") .nil (by decide) (by decide)
      (by decide)
  rw [hr]

/-! ## C1: admin identities calling notify -/

/-- C1 (code bug).  The notify route carries no admin rejection: a request
presenting the admin secret passes `authenticate` (resolved as admin, with no
caller context attached) and passes `validate` (the channel-availability
check is skipped without an `appConfig`), and the handler then crashes — the
insert binds `app: undefined`, which better-sqlite3 rejects by throwing — so
the caller gets an unhandled internal error rather than the rejection the
spec mandates.  No Message Record is created and no adapter is called. -/
theorem admin_notify_internal_error_no_record :
    authenticate testConfig testAdminKey (some testAdminKey) = .admin
    ∧ notifyPipeline testConfig testAdminKey (some testAdminKey) validRaw
        (.ok 204 "") none 7 [] = ⟨.internalError, [], []⟩ :=
  ⟨by decide, by decide⟩

/-! ## C2: the credential comparison -/

/-- C2 (code bug).  `safeCompare` is not byte-for-byte equality: the padding
buffers are allocated with the UTF-16 length but written with UTF-8 bytes, so
a trailing character that does not fit is silently dropped.  For `"éa"` and
`"éb"` both buffers hold exactly the two bytes of `é` and the UTF-16 lengths
agree, so `safeCompare` declares a match although the strings (and their
UTF-8 encodings) differ. -/
theorem safeCompare_accepts_unequal_secrets :
    safeCompare "éa" "éb" = true
    ∧ ("éa" : String) ≠ "éb"
    ∧ ("éa" : String).data.flatMap utf8Bytes ≠ ("éb" : String).data.flatMap utf8Bytes :=
  ⟨by decide, by decide, by decide⟩

/-! ## C5: rejection before side effects -/

def protoRaw : RawRequest :=
  { channel := some "toString"
    body := some "This is a valid body message with enough characters" }

/-- C5 (code bug).  A request with `channel: "toString"` is rejected with the
INVALID_CHANNEL error kind, yet a Message Record is created first: the
validator's availability check `appConfig.channels[channel]` finds the
inherited, truthy `Object.prototype.toString`, so validation passes; the
handler then logs a pending row, falls into its "should not reach here"
unsupported-channel branch, finalizes the row to `failed`, and answers
INVALID_CHANNEL — an InvalidChannel rejection with a persisted side effect. -/
theorem invalid_channel_rejection_with_record :
    notifyPipeline testConfig testAdminKey (some "dk_test_abc123secret")
      protoRaw (.ok 204 "") none 7 []
      = ⟨.unsupportedChannel "toString",
          [{ id := 1
             app := "test-app"
             channel := "toString"
             status := .failed
             sender_name := none
             sender_email := none
             subject := none
             body := "This is a valid body message with enough characters"
             metadata := none
             discord_response := none
             error := some "Unsupported channel: toString"
             ip_address := none
             created_at := 7
             sent_at := none }], []⟩ := by decide

/-! ## C6: what `sanitize` removes -/

/-- C6 counterexample: both halves of the claim fail.  `sanitize` leaves
`data:` protocol text untouched (it has no `data:` replacement step), and its
`javascript:` removal is a single pass, so deleting a marker can splice the
surrounding text into a new `javascript:` marker that survives in the
output. -/
theorem sanitize_keeps_protocol_markers :
    sanitize "data:text/html,alert(1)" = "data:text/html,alert(1)"
    ∧ hasSub (str "data:") (sanitize "data:text/html,alert(1)").data = true
    ∧ sanitize "javajavascript:script:alert(1)" = "javascript:alert(1)"
    ∧ hasSub (str "javascript:")
        (sanitize "javajavascript:script:alert(1)").data = true :=
  ⟨by decide, by decide, by decide, by decide⟩

/-- C6 amended.  `sanitize`'s protocol stripping is narrower than claimed: it
removes the `javascript:` markers found in one left-to-right pass,
case-insensitively and with optional whitespace before the colon, but the
pass is not iterated (only the tag strip runs to a fixed point), so a removal
can splice surrounding text into a new `javascript:` marker that survives;
and it performs no `data:` removal at all.  Both markers are instead caught
by the spam classifier, whose `security` rules flag `javascript:` and `data:`
content and make the orchestrator reject the message. -/
theorem sanitize_removes_javascript_not_data :
    sanitize "javascript:alert(1)" = "alert(1)"
    ∧ sanitize "JaVaScRiPt:alert(1)" = "alert(1)"
    ∧ sanitize "javascript  :alert(1)" = "alert(1)"
    ∧ sanitize "javajavascript:script:alert(1)" = "javascript:alert(1)"
    ∧ sanitize "data:text/html,x" = "data:text/html,x"
    ∧ checkSpam "javajavascript:script:alert(1)"
        = ⟨true, some "security", some "Contains javascript protocol"⟩
    ∧ checkSpam "data:text/html,x"
        = ⟨true, some "security", some "Contains data protocol"⟩ :=
  ⟨by decide, by decide, by decide, by decide, by decide, by decide, by decide⟩

/-! ## C8: adapter result semantics -/

/-- C8.  For every channel configuration, payload, caller display name and
fetch outcome, both adapters return (never throw): success exactly when the
outbound call resolved with a 2xx status; on a non-2xx response a failure
whose error carries the HTTP status and response body; on a thrown transport
error a failure carrying that error's message. -/
theorem adapter_send_semantics (dcfg : DiscordChannelConfig)
    (scfg : SlackChannelConfig) (payload : NotifyPayload) (appName : String)
    (outcome : FetchOutcome) :
    ((sendDiscord dcfg payload appName outcome).success = true
      ↔ ∃ st text, outcome = .ok st text ∧ respOk st = true)
    ∧ (∀ st text, outcome = .ok st text → respOk st = false →
        sendDiscord dcfg payload appName outcome
          = ⟨false, none,
              some ("Discord webhook returned " ++ toString st ++ ": " ++ text)⟩)
    ∧ (∀ msg, outcome = .threw msg →
        sendDiscord dcfg payload appName outcome = ⟨false, none, some msg⟩)
    ∧ ((sendSlack scfg payload appName outcome).success = true
      ↔ ∃ st text, outcome = .ok st text ∧ respOk st = true)
    ∧ (∀ st text, outcome = .ok st text → respOk st = false →
        sendSlack scfg payload appName outcome
          = ⟨false, none,
              some ("Slack webhook returned " ++ toString st ++ ": " ++ text)⟩)
    ∧ (∀ msg, outcome = .threw msg →
        sendSlack scfg payload appName outcome = ⟨false, none, some msg⟩) := by
  cases outcome with
  | ok st text =>
    by_cases h : respOk st = true
    · refine ⟨?_, ?_, ?_, ?_, ?_, ?_⟩ <;> simp_all [sendDiscord, sendSlack]
    · have h' : respOk st = false := by simpa using h
      refine ⟨?_, ?_, ?_, ?_, ?_, ?_⟩ <;> simp_all [sendDiscord, sendSlack]
  | threw msg =>
    refine ⟨?_, ?_, ?_, ?_, ?_, ?_⟩ <;> simp_all [sendDiscord, sendSlack]

/-- Witness for C8: a 204 response is a success. -/
theorem adapter_send_semantics_witness :
    (sendDiscord testDiscordCfg
      { channel := "discord", body := "hello there friend" } "test-app"
      (.ok 204 "")).success = true :=
  (adapter_send_semantics testDiscordCfg testSlackCfg
    { channel := "discord", body := "hello there friend" } "test-app"
    (.ok 204 "")).1.mpr ⟨204, "", rfl, by decide⟩

/-! ## C9: ordered first-match classification -/

/-- `List.find?` returns the element at the first index whose test holds. -/
theorem find_eq_first_match {α : Type} (p : α → Bool) :
    ∀ (l : List α) (i : Nat) (h : i < l.length),
      (∀ j (hj : j < i), p (l.get ⟨j, Nat.lt_trans hj h⟩) = false) →
      p (l.get ⟨i, h⟩) = true → l.find? p = some (l.get ⟨i, h⟩) := by
  intro l
  induction l with
  | nil => intro i h _ _; exact absurd h (by simp)
  | cons x xs ih =>
    intro i h hprev hcur
    cases i with
    | zero => exact List.find?_cons_of_pos _ hcur
    | succ n =>
      have h0 : p x = false := hprev 0 (Nat.succ_pos n)
      rw [List.find?_cons_of_neg _ (by simp [h0])]
      exact ih n (Nat.lt_of_succ_lt_succ h)
        (fun j hj => hprev (j + 1) (Nat.succ_lt_succ hj)) hcur

/-- C9.  `checkSpam` evaluates its rule list in order and reports the first
matching rule's category and reason (order encodes priority); in particular
`"Buy cheap viagra online now"` is classified as spam with category
`medical`. -/
theorem checkSpam_first_match_priority :
    (∀ (text : String), text ≠ "" →
      ∀ (i : Nat) (hi : i < SPAM_PATTERNS.length),
        (∀ j (hj : j < i),
          (SPAM_PATTERNS.get ⟨j, Nat.lt_trans hj hi⟩).test text.data = false) →
        (SPAM_PATTERNS.get ⟨i, hi⟩).test text.data = true →
        checkSpam text
          = ⟨true, some (SPAM_PATTERNS.get ⟨i, hi⟩).category,
              some (SPAM_PATTERNS.get ⟨i, hi⟩).reason⟩)
    ∧ checkSpam "Buy cheap viagra online now"
        = ⟨true, some "medical", some "Contains prohibited medical content"⟩ := by
  constructor
  · intro text htext i hi hprev hcur
    unfold checkSpam
    rw [if_neg htext,
      find_eq_first_match (fun p => p.test text.data) SPAM_PATTERNS i hi hprev hcur]
  · decide

/-- Witness for C9: rule 1 (the medical rule) is the first match for the
fixture sentence, so its category is reported. -/
theorem checkSpam_first_match_priority_witness :
    checkSpam "Buy cheap viagra online now"
      = ⟨true, some (SPAM_PATTERNS.get ⟨1, by decide⟩).category,
          some (SPAM_PATTERNS.get ⟨1, by decide⟩).reason⟩ :=
  checkSpam_first_match_priority.1 "Buy cheap viagra online now" (by decide) 1
    (by decide)
    (fun j hj => by
      have hj0 : j = 0 := by omega
      subst hj0
      exact (by decide :
        (SPAM_PATTERNS.get ⟨0, Nat.succ_pos 22⟩).test
          "Buy cheap viagra online now".data = false))
    (by decide)

end Dispatch
